import Mathlib

/-!
# Verification of the `yoink` document mirroring scripts

A shallow embedding of `src/yoink.py` and `src/generate_index.py`.

External effects are modelled explicitly:
* the local filesystem is a partial map from path strings to file contents
  (byte lists);
* each HTTP call made by `requests.get` is an environment-supplied value:
  either a raised transport exception (`Except.error`) or a completed
  response carrying a status code and, for streaming fetches, the sequence
  of body chunks (each chunk either delivered or failing mid-stream);
* `PyPDF2.PdfReader` metadata access is an environment-supplied value that
  either raises or yields the optional `/Title` entry;
* `hashlib.sha256` is an abstract digest function parameter — the code only
  ever compares digests for equality;
* `datetime.now().strftime(...)` is an environment-supplied timestamp string.

Every definition mirrors the corresponding Python function and keeps its
name where possible.
-/

namespace Yoink

/-- File contents: a list of bytes. -/
abbrev Content := List Nat

/-- The local filesystem: a partial map from paths to file contents. -/
abbrev Fs := String → Option Content

/-- Writing a file (`open(p, 'wb')` followed by writes, or a completed write):
truncates/creates the file at `p` with content `c`. -/
def fsWrite (fs : Fs) (p : String) (c : Content) : Fs :=
  fun q => if q = p then some c else fs q

/-- Removal of a file: `os.remove p`. -/
def fsRemove (fs : Fs) (p : String) : Fs :=
  fun q => if q = p then none else fs q

/-- Moving a file: `shutil.move src dst`.  The scripts only move files they know exist, so
the missing-source case (where Python would raise) is modelled as a no-op. -/
def fsMove (fs : Fs) (src dst : String) : Fs :=
  match fs src with
  | some c => fun q => if q = dst then some c else if q = src then none else fs q
  | none => fs

/-- A single filesystem effect, for recording the order of side effects. -/
inductive FsOp where
  | write (path : String) (content : Content)
  | move (src dst : String)
  | remove (path : String)
deriving DecidableEq

/-- Apply one recorded effect to a filesystem. -/
def applyOp (fs : Fs) : FsOp → Fs
  | .write p c => fsWrite fs p c
  | .move s d => fsMove fs s d
  | .remove p => fsRemove fs p

/-- Apply a trace of effects in order. -/
def applyOps (fs : Fs) (ops : List FsOp) : Fs :=
  ops.foldl applyOp fs

/-- Path joining, `os.path.join a b`, for the plain relative names this program joins. -/
def pjoin (a b : String) : String := a ++ "/" ++ b

/-- Uppercase hexadecimal digit for `n < 16`. -/
def hexUpper (n : Nat) : Char :=
  if n < 10 then Char.ofNat (48 + n) else Char.ofNat (55 + n)

/-- Percent-encoding of one byte, as produced by `urllib.parse.quote_plus`. -/
def percentByte (b : Nat) : List Char :=
  ['%', hexUpper (b / 16), hexUpper (b % 16)]

/-- Characters `urllib.parse.quote_plus` leaves unescaped (letters, digits,
`_`, `.`, `-`, `~`). -/
def plusSafe (c : Char) : Bool :=
  c.isAlphanum || c = '_' || c = '.' || c = '-' || c = '~'

/-- URL escaping, `urllib.parse.quote_plus`: spaces become `+`, safe characters pass
through, everything else is percent-encoded byte by byte (UTF-8). -/
def quote_plus (s : String) : String :=
  String.mk (s.data.flatMap (fun c =>
    if c = ' ' then ['+']
    else if plusSafe c then [c]
    else (String.utf8EncodeChar c).flatMap (fun b => percentByte b.toNat)))

/-- Does `hay` start with `needle`? (helper for Python's `in` operator). -/
def startsWithList : List Char → List Char → Bool
  | _, [] => true
  | [], _ :: _ => false
  | h :: hs, n :: ns => h = n && startsWithList hs ns

/-- Python's substring test `needle in hay` on character lists. -/
def containsList (needle : List Char) : List Char → Bool
  | [] => needle.isEmpty
  | c :: rest => startsWithList (c :: rest) needle || containsList needle rest

/-- Python's `needle in hay` on strings. -/
def str_contains (hay needle : String) : Bool :=
  containsList needle.data hay.data

/-- A completed (non-raising) `requests.get(url, allow_redirects=True)`
exchange: final status code and final redirected URL. -/
structure GetResp where
  status : Nat
  url : String
deriving DecidableEq

instance {ε α : Type} [DecidableEq ε] [DecidableEq α] : DecidableEq (Except ε α) :=
  fun a b =>
  match a, b with
  | .ok x, .ok y => if h : x = y then .isTrue (by rw [h]) else .isFalse (by simp [h])
  | .error x, .error y => if h : x = y then .isTrue (by rw [h]) else .isFalse (by simp [h])
  | .ok _, .error _ => .isFalse (by simp)
  | .error _, .ok _ => .isFalse (by simp)

/-- A completed connection for `requests.get(url, stream=True)`: status code
plus the stream of body chunks; a chunk of `Except.error ()` is a mid-stream
transport failure raised by `iter_content`. -/
structure FetchResp where
  status : Nat
  chunks : List (Except Unit Content)
deriving DecidableEq

/-- All chunks of a stream are delivered without a mid-stream error. -/
def chunksAllOk : List (Except Unit Content) → Bool
  | [] => true
  | .ok _ :: rest => chunksAllOk rest
  | .error _ :: _ => false

/-- The full body of a stream, ignoring the tail after an error. -/
def chunksJoin : List (Except Unit Content) → Content
  | [] => []
  | .ok c :: rest => c ++ chunksJoin rest
  | .error _ :: rest => chunksJoin rest

/-- The chunk-writing loop of `download_file`: `for chunk in
resp.iter_content(1024): f.write(chunk)`.  The file at `p` currently holds
`written`; each delivered chunk is appended on disk; a mid-stream error
raises, leaving the partial file behind.  Returns the filesystem, the trace
of writes performed, and either success or the propagated exception. -/
def writeChunks (fs : Fs) (p : String) (written : Content) :
    List (Except Unit Content) → Fs × List FsOp × Except Unit Unit
  | [] => (fs, [], .ok ())
  | .ok c :: rest =>
      let w := written ++ c
      let r := writeChunks (fsWrite fs p w) p w rest
      (r.1, .write p w :: r.2.1, r.2.2)
  | .error e :: _ => (fs, [], .error e)

/-- The Fetcher, `download_file(url, dest_path)`.  Here `resp` is the outcome of
`requests.get(url, stream=True)` (`Except.error` = the call itself raised).
On status 200 it opens `dest_path` for writing (creating an empty file) and
streams the chunks; otherwise it returns `False` without touching the
filesystem.  Result: filesystem, effect trace, and `Bool` success or a
propagated exception. -/
def download_file (resp : Except Unit FetchResp) (fs : Fs) (dest_path : String) :
    Fs × List FsOp × Except Unit Bool :=
  match resp with
  | .error e => (fs, [], .error e)
  | .ok r =>
    if r.status = 200 then
      match writeChunks (fsWrite fs dest_path []) dest_path [] r.chunks with
      | (fs2, ops, .ok _) => (fs2, .write dest_path [] :: ops, .ok true)
      | (fs2, ops, .error e) => (fs2, .write dest_path [] :: ops, .error e)
    else (fs, [], .ok false)

/-- The URL Resolver, `resolve_pdf_url(base_url, item)`.  Here `http_get` is the environment's
answer to `requests.get(full_url, allow_redirects=True)`; an exception from
it propagates (the Python code has no handler here).  On a completed
exchange: return the final URL when the status is 200 and `".pdf"` occurs in
the final URL string, else `None`. -/
def resolve_pdf_url (http_get : String → Except Unit GetResp)
    (base_url item : String) : Except Unit (Option String) :=
  let full_url := base_url ++ quote_plus item
  match http_get full_url with
  | .error e => .error e
  | .ok resp =>
    if resp.status = 200 ∧ str_contains resp.url ".pdf" = true then
      .ok (some resp.url)
    else .ok none

/-- Everything after the `://` scheme separator of a URL (helper for
`specUrlPath`). -/
def afterScheme : List Char → List Char
  | ':' :: '/' :: '/' :: rest => rest
  | _ :: rest => afterScheme rest
  | [] => []

/-- Modelled from the spec: "the final resolved URL's path indicates a
document (path ends in the expected document extension)".  The path
component of a URL: from the first `/` after the scheme separator up to the
first `?` or `#`.  This is the spec's reading of the resolver check, stated
here only to compare against the code's actual test (`".pdf" in
resp.url`). -/
def specUrlPath (u : String) : String :=
  String.mk (((afterScheme u.data).dropWhile (fun c => c ≠ '/')).takeWhile
    (fun c => ¬ (c = '?' ∨ c = '#')))

/-- Outcome of `PdfReader(path).metadata.get('/Title')`: either some step of
parsing/metadata access raised, or it yielded the optional title string. -/
inductive PdfParse where
  | fail
  | meta (title : Option String)
deriving DecidableEq

/-- The characters stripped by `re.sub(r'[\\/*?:"<>|]', "", title)`. -/
def bad_chars : List Char := ['\\', '/', '*', '?', ':', '"', '<', '>', '|']

/-- Whitespace removed by Python's `str.strip()` (the ASCII whitespace set). -/
def strip_chars : List Char := [' ', '\t', '\n', '\r', '\x0b', '\x0c']

/-- Python `str.strip()` on a character list. -/
def pyStrip (l : List Char) : List Char :=
  ((l.dropWhile (· ∈ strip_chars)).reverse.dropWhile (· ∈ strip_chars)).reverse

/-- Sanitization, `re.sub(r'[\\/*?:"<>|]', "", title).strip()`. -/
def sanitize_title (s : String) : String :=
  String.mk (pyStrip (s.data.filter (fun c => ¬ c ∈ bad_chars)))

/-- The Title Extractor, `get_pdf_title(path)`, as a function of the parse outcome: any exception
is swallowed to `None`; a missing or empty (falsy) `/Title` yields `None`; a
non-empty title is sanitized and stripped. -/
def get_pdf_title (p : PdfParse) : Option String :=
  match p with
  | .fail => none
  | .meta none => none
  | .meta (some t) => if t = "" then none else some (sanitize_title t)

/-- Extension stripping, `os.path.splitext(s)[0]`: the name with its extension (from the last
dot) removed; a name whose characters before the last dot are all dots has
no extension. -/
def splitext_stem (s : String) : String :=
  match s.data.reverse.findIdx? (· = '.') with
  | none => s
  | some k =>
    let i := s.data.length - 1 - k
    if (s.data.take i).all (· = '.') then s else String.mk (s.data.take i)

/-- The filename-derivation step of `process_item` (lines 190–197):
`title = get_pdf_title(temp_file); if not title: title = item;
final_name = f"{title}.pdf"` under `filename_mode == "title"`, and
`final_name = f"{item}.pdf"` otherwise. -/
def derive_final_name (filename_mode item : String) (p : PdfParse) : String :=
  if filename_mode = "title" then
    let title := match get_pdf_title p with
      | none => item
      | some t => if t = "" then item else t
    title ++ ".pdf"
  else item ++ ".pdf"

/-- The Temporary File path `os.path.join(folder, f"{item}_new.pdf")`. -/
def temp_path (folder item : String) : String :=
  pjoin folder (item ++ "_new.pdf")

/-- The archived name `os.path.join(archive_folder,
f"{os.path.splitext(final_name)[0]}_{timestamp}.pdf")`. -/
def archived_path (archive_folder final_name timestamp : String) : String :=
  pjoin archive_folder (splitext_stem final_name ++ "_" ++ timestamp ++ ".pdf")

/-- The Content Hasher, `file_checksum(path)`, with digest function `sha`; opening a missing file
raises. -/
def file_checksum (sha : Content → Nat) (fs : Fs) (path : String) :
    Except Unit Nat :=
  match fs path with
  | some c => .ok (sha c)
  | none => .error ()

/-- Terminal outcome of one `process_item` call (its status print lines). -/
inductive ItemResult where
  | notFound
  | downloadFailed
  | updated
  | upToDate
  | downloaded
deriving DecidableEq

/-- The environment of one `process_item` run: the answers the outside world
gives to its resolve call, its fetch call, its PDF-metadata read, and its
clock read. -/
structure Env where
  resolveResp : Except Unit GetResp
  fetchResp : Except Unit FetchResp
  pdfParse : PdfParse
  timestamp : String

/-- The Sync Engine, `process_item(category, item, base_url, folder, archive_folder,
filename_mode)` over the filesystem `fs`, given digest function `sha` and
environment `env`.  Returns the final filesystem, the ordered trace of
filesystem effects, and the terminal outcome (`Except.error` = an uncaught
Python exception escaping `process_item`). -/
def process_item (sha : Content → Nat) (env : Env)
    (base_url folder archive_folder item filename_mode : String)
    (fs : Fs) : Fs × List FsOp × Except Unit ItemResult :=
  match resolve_pdf_url (fun _ => env.resolveResp) base_url item with
  | .error e => (fs, [], .error e)
  | .ok none => (fs, [], .ok .notFound)
  | .ok (some _resolved_url) =>
    let temp_file := temp_path folder item
    match download_file env.fetchResp fs temp_file with
    | (fs1, ops1, .error e) => (fs1, ops1, .error e)
    | (fs1, ops1, .ok false) => (fs1, ops1, .ok .downloadFailed)
    | (fs1, ops1, .ok true) =>
      let final_name := derive_final_name filename_mode item env.pdfParse
      let final_file := pjoin folder final_name
      match fs1 final_file with
      | none =>
        (fsMove fs1 temp_file final_file,
         ops1 ++ [.move temp_file final_file], .ok .downloaded)
      | some _ =>
        match file_checksum sha fs1 final_file, file_checksum sha fs1 temp_file with
        | .ok old_hash, .ok new_hash =>
          if old_hash ≠ new_hash then
            let archived_name := archived_path archive_folder final_name env.timestamp
            (fsMove (fsMove fs1 final_file archived_name) temp_file final_file,
             ops1 ++ [.move final_file archived_name, .move temp_file final_file],
             .ok .updated)
          else
            (fsRemove fs1 temp_file, ops1 ++ [.remove temp_file], .ok .upToDate)
        | .error e, _ => (fs1, ops1, .error e)
        | _, .error e => (fs1, ops1, .error e)

/-! ## The orchestrator (`main`)

`main` walks the validated config, prepares folders per category, submits
one `process_item` future per (category, item) pair to a
`ThreadPoolExecutor(max_workers=threads)`, and drains `as_completed(tasks)`
without ever retrieving results or cancelling futures.  The executor is
modelled as a nondeterministic transition system over a fixed-size worker
pool; a submitted task carries its terminal outcome (futures capture
exceptions, so an exceptional outcome is data, not a control transfer). -/

/-- One category's settings from the validated YAML `downloads` section. -/
structure CategoryDetails where
  folder : String
  base_url : String
  filename_mode : Option String
  items : List String

/-- The default naming policy lookup `details.get('filename_mode', 'item')` in `main`. -/
def effective_filename_mode (d : CategoryDetails) : String :=
  d.filename_mode.getD "item"

/-- The (category, item) pairs submitted by `main`'s nested loops: exactly
one per (category, item) pair, in config order. -/
def submitted_tasks (config : List (String × CategoryDetails)) :
    List (String × String) :=
  config.flatMap (fun cd => cd.2.items.map (fun item => (cd.1, item)))

/-- State of the worker pool: futures not yet started, futures currently
running on a worker, and completed futures. -/
structure PoolState (τ : Type) where
  queue : List τ
  running : List τ
  completed : List τ

/-- One scheduling step of the executor: start a queued task when a worker
is free (at most `pool` run at once), or finish any running task.  Steps
never inspect a task's outcome and never discard a task. -/
inductive PoolStep (τ : Type) (pool : Nat) : PoolState τ → PoolState τ → Prop where
  | start (t : τ) (q r d : List τ) (h : r.length < pool) :
      PoolStep τ pool ⟨t :: q, r, d⟩ ⟨q, t :: r, d⟩
  | finish (t : τ) (q r₁ r₂ d : List τ) :
      PoolStep τ pool ⟨q, r₁ ++ t :: r₂, d⟩ ⟨q, r₁ ++ r₂, t :: d⟩

/-- The multiset of all tasks present in a pool state. -/
def poolLoad {τ : Type} (s : PoolState τ) : Multiset τ :=
  (s.queue : Multiset τ) + (s.running : Multiset τ) + (s.completed : Multiset τ)

/-- A terminal pool state: nothing queued, nothing running — exactly the
condition under which `main`'s drain loop over `as_completed` returns. -/
def poolDone {τ : Type} (s : PoolState τ) : Prop :=
  s.queue = [] ∧ s.running = []

end Yoink

/-! ## `src/generate_index.py` -/

namespace GenIndex

/-- A directory listing with file contents: entry name paired with content
(directory entries that are not regular files carry irrelevant content). -/
abbrev Dir := List (String × String)

/-- Reading the file `name`, if present. -/
def dirLookup (d : Dir) (name : String) : Option String :=
  (d.find? (fun e => e.1 == name)).map Prod.snd

/-- Writing a file, `open(name, "w")` plus write: replaces the content of an existing entry or
appends a new one. -/
def dirWrite (d : Dir) (name content : String) : Dir :=
  if d.any (fun e => e.1 == name) then
    d.map (fun e => if e.1 == name then (name, content) else e)
  else d ++ [(name, content)]

/-- Does `s` start with `t`? (helper for suffix tests via reversal). -/
def headMatches : List Char → List Char → Bool
  | _, [] => true
  | [], _ :: _ => false
  | h :: hs, n :: ns => h = n && headMatches hs ns

/-- Python `str.endswith`. -/
def pyEndsWith (s t : String) : Bool :=
  headMatches s.data.reverse t.data.reverse

/-- Python `str.lower` (ASCII lowering, as used on the filenames here). -/
def pyLower (s : String) : String :=
  String.mk (s.data.map Char.toLower)

/-- Python `str.casefold`, modelled as ASCII lowercasing (it agrees with
`lower` on ASCII, which is what these filenames are compared with). -/
def casefold (s : String) : String := pyLower s

/-- Python `os.path.basename`. -/
def pybasename (p : String) : String :=
  String.mk ((p.data.reverse.takeWhile (fun c => c ≠ '/')).reverse)

/-- The filter suffix `file_extensions = (".html")` — note: a plain string, not a tuple, in
the source. -/
def file_extensions : String := ".html"

/-- Lexicographic comparison of character lists by code point — Python's
`<=` on strings. -/
def charListLe : List Char → List Char → Bool
  | [], _ => true
  | _ :: _, [] => false
  | a :: as, b :: bs => if a = b then charListLe as bs else decide (a < b)

/-- The comparison `sorted(..., key=str.casefold)` sorts by: casefolded
names compared as Python strings. -/
def casefoldLe (a b : String) : Bool :=
  charListLe (casefold a).data (casefold b).data

/-- The gathered listing: entries whose lowercased name does not end in
`".html"`, sorted by `str.casefold` (`sorted(..., key=str.casefold)`).
Python's `sorted` is a stable sort; stable sorts of a list under a total
preorder agree on their output, so it is modelled by the (stable) insertion
sort. -/
def index_entries (listing : List String) : List String :=
  (listing.filter (fun f => !(pyEndsWith (pyLower f) file_extensions))).insertionSort
    (fun a b => casefoldLe a b = true)

/-- The head of the generated HTML page, up to and including the opening
`<ul>` line (the f-string interpolates the directory's basename). -/
def html_head (base : String) : String :=
"<!DOCTYPE html>
<html lang=\"en\">
<head>
  <meta charset=\"UTF-8\">
  <title>PDF Index</title>
  <style>
    body \x7b font-family: sans-serif; margin: 2em; \x7d
    input[type=\"text\"] \x7b width: 300px; padding: 8px; margin-bottom: 20px; \x7d
    ul \x7b list-style-type: none; padding: 0; \x7d
    li \x7b margin: 6px 0; \x7d
    a \x7b text-decoration: none; color: #0066cc; \x7d
    a:hover \x7b text-decoration: underline; \x7d
  </style>
  <script>
    window.onload = () => \x7b
        document.getElementById(\x27search\x27).focus();
        \x7d;
    function search() \x7b
      const input = document.getElementById(\x27search\x27).value.toLowerCase();
      const items = document.querySelectorAll(\x27li\x27);
      items.forEach(item => \x7b
        const text = item.textContent.toLowerCase();
        item.style.display = text.includes(input) ? \x27\x27 : \x27none\x27;
      \x7d);
    \x7d
  </script>
</head>
<body>
  <h1>" ++ base ++ "</h1>
  <input type=\"text\" id=\"search\" onkeyup=\"search()\" placeholder=\"Search PDFs...\">
  <ul>
"

/-- One `<li>` line appended per listed file. -/
def html_item (filename : String) : String :=
  "    <li><a href=\"" ++ filename ++ "\">" ++ filename ++ "</a></li>\n"

/-- The closing lines of the page. -/
def html_tail : String := "  </ul>\n</body>\n</html>\n"

/-- The full page text for directory basename `base` and file list
`files`. -/
def render_html (base : String) (files : List String) : String :=
  files.foldl (fun acc f => acc ++ html_item f) (html_head base) ++ html_tail

/-- The fixed output name `index.html`. -/
def output_file_name : String := "index.html"

/-- The generator, `generate_index(pdf_dir)`, over directory contents `d` (the successful
path: `pdf_dir` names a valid directory, taken as already absolute).  Lists
the directory, filters and sorts, renders the page, and writes it to
`index.html` in the same directory. -/
def generate_index (d : Dir) (pdf_dir : String) : Dir :=
  let pdf_files := index_entries (d.map Prod.fst)
  dirWrite d output_file_name (render_html (pybasename pdf_dir) pdf_files)

end GenIndex

/-! ## Supporting lemmas -/

namespace Yoink

theorem fsWrite_self {fs : Fs} {p : String} {c : Content} (h : fs p = some c) :
    fsWrite fs p c = fs := by
  funext q
  by_cases hq : q = p
  · simp [fsWrite, hq, h.symm]
  · simp [fsWrite, hq]

theorem fsWrite_fsWrite (fs : Fs) (p : String) (a b : Content) :
    fsWrite (fsWrite fs p a) p b = fsWrite fs p b := by
  funext q
  by_cases hq : q = p <;> simp [fsWrite, hq]

theorem fsWrite_at (fs : Fs) (p : String) (c : Content) :
    fsWrite fs p c p = some c := by
  simp [fsWrite]

theorem fsWrite_ne (fs : Fs) {p q : String} (c : Content) (h : q ≠ p) :
    fsWrite fs p c q = fs q := by
  simp [fsWrite, h]

theorem applyOps_cons (fs : Fs) (op : FsOp) (ops : List FsOp) :
    applyOps fs (op :: ops) = applyOps (applyOp fs op) ops := rfl

theorem applyOps_append (fs : Fs) (ops₁ ops₂ : List FsOp) :
    applyOps fs (ops₁ ++ ops₂) = applyOps (applyOps fs ops₁) ops₂ :=
  List.foldl_append _ _ _ _

theorem writeChunks_chunksOk (p : String) :
    ∀ (ch : List (Except Unit Content)) (fs : Fs) (w : Content),
      chunksAllOk ch = true → fs p = some w →
      ∃ ops, writeChunks fs p w ch = (fsWrite fs p (w ++ chunksJoin ch), ops, .ok ())
        ∧ applyOps fs ops = fsWrite fs p (w ++ chunksJoin ch)
  | [], fs, w, _, hw => by
      refine ⟨[], ?_, ?_⟩
      · simp [writeChunks, chunksJoin, fsWrite_self hw]
      · simp [applyOps, chunksJoin, fsWrite_self hw]
  | .ok c :: rest, fs, w, hok, hw => by
      have hrest : chunksAllOk rest = true := by simpa [chunksAllOk] using hok
      obtain ⟨ops, heq, hco⟩ :=
        writeChunks_chunksOk p rest (fsWrite fs p (w ++ c)) (w ++ c) hrest
          (fsWrite_at fs p (w ++ c))
      refine ⟨.write p (w ++ c) :: ops, ?_, ?_⟩
      · simp [writeChunks, heq, chunksJoin, fsWrite_fsWrite, List.append_assoc]
      · simp [applyOps_cons, applyOp, hco, chunksJoin, fsWrite_fsWrite, List.append_assoc]

theorem writeChunks_frame (p : String) :
    ∀ (ch : List (Except Unit Content)) (fs : Fs) (w : Content) (q : String),
      q ≠ p → (writeChunks fs p w ch).1 q = fs q
  | [], fs, w, q, hq => rfl
  | .ok c :: rest, fs, w, q, hq => by
      simpa [writeChunks, fsWrite_ne fs (w ++ c) hq] using
        writeChunks_frame p rest (fsWrite fs p (w ++ c)) (w ++ c) q hq
  | .error e :: rest, fs, w, q, hq => rfl

theorem download_file_chunksOk (fr : FetchResp) (fs : Fs) (dest : String)
    (hst : fr.status = 200) (hok : chunksAllOk fr.chunks = true) :
    ∃ ops, download_file (.ok fr) fs dest =
        (fsWrite fs dest (chunksJoin fr.chunks), ops, .ok true)
      ∧ applyOps fs ops = fsWrite fs dest (chunksJoin fr.chunks) := by
  obtain ⟨ops, heq, hco⟩ :=
    writeChunks_chunksOk dest fr.chunks (fsWrite fs dest []) [] hok
      (fsWrite_at fs dest [])
  refine ⟨.write dest [] :: ops, ?_, ?_⟩
  · simp [download_file, hst, heq, fsWrite_fsWrite]
  · simp only [applyOps_cons, applyOp]
    simpa [fsWrite_fsWrite] using hco

theorem resolve_ok_of (env : Env) (base_url item : String) (g : GetResp)
    (hres : env.resolveResp = .ok g) (hg : g.status = 200)
    (hurl : str_contains g.url ".pdf" = true) :
    resolve_pdf_url (fun _ => env.resolveResp) base_url item = .ok (some g.url) := by
  simp [resolve_pdf_url, hres, hg, hurl]

theorem process_item_upToDate (sha : Content → Nat) (env : Env)
    (base_url folder archive_folder item filename_mode : String) (fs : Fs)
    (g : GetResp) (fr : FetchResp) (oldC : Content)
    (hres : env.resolveResp = .ok g) (hg : g.status = 200)
    (hurl : str_contains g.url ".pdf" = true)
    (hfet : env.fetchResp = .ok fr) (hfst : fr.status = 200)
    (hok : chunksAllOk fr.chunks = true)
    (hneq : pjoin folder (derive_final_name filename_mode item env.pdfParse) ≠
      temp_path folder item)
    (hold : fs (pjoin folder (derive_final_name filename_mode item env.pdfParse)) =
      some oldC)
    (hsha : sha oldC = sha (chunksJoin fr.chunks)) :
    ∃ dops,
      process_item sha env base_url folder archive_folder item filename_mode fs =
        ((fun q => if q = temp_path folder item then none else fs q),
         dops ++ [.remove (temp_path folder item)], .ok .upToDate)
      ∧ applyOps fs dops = fsWrite fs (temp_path folder item) (chunksJoin fr.chunks) := by
  obtain ⟨dops, hdl, hco⟩ := download_file_chunksOk fr fs (temp_path folder item) hfst hok
  refine ⟨dops, ?_, hco⟩
  have hrem : fsRemove (fsWrite fs (temp_path folder item) (chunksJoin fr.chunks))
      (temp_path folder item) = (fun q => if q = temp_path folder item then none else fs q) := by
    funext q
    by_cases hq : q = temp_path folder item <;> simp [fsRemove, fsWrite, hq]
  simp only [process_item, resolve_ok_of env base_url item g hres hg hurl, hfet, hdl,
    fsWrite, hneq, if_neg, hold, file_checksum, fsWrite_at]
  simp [hsha, file_checksum, fsWrite, hneq, hold, hrem, fsRemove]

theorem process_item_firstWrite (sha : Content → Nat) (env : Env)
    (base_url folder archive_folder item filename_mode : String) (fs : Fs)
    (g : GetResp) (fr : FetchResp)
    (hres : env.resolveResp = .ok g) (hg : g.status = 200)
    (hurl : str_contains g.url ".pdf" = true)
    (hfet : env.fetchResp = .ok fr) (hfst : fr.status = 200)
    (hok : chunksAllOk fr.chunks = true)
    (hneq : pjoin folder (derive_final_name filename_mode item env.pdfParse) ≠
      temp_path folder item)
    (hnew : fs (pjoin folder (derive_final_name filename_mode item env.pdfParse)) = none) :
    ∃ dops,
      process_item sha env base_url folder archive_folder item filename_mode fs =
        ((fun q =>
            if q = pjoin folder (derive_final_name filename_mode item env.pdfParse) then
              some (chunksJoin fr.chunks)
            else if q = temp_path folder item then none
            else fs q),
         dops ++ [.move (temp_path folder item)
            (pjoin folder (derive_final_name filename_mode item env.pdfParse))],
         .ok .downloaded)
      ∧ applyOps fs dops = fsWrite fs (temp_path folder item) (chunksJoin fr.chunks) := by
  obtain ⟨dops, hdl, hco⟩ := download_file_chunksOk fr fs (temp_path folder item) hfst hok
  refine ⟨dops, ?_, hco⟩
  have hmv : fsMove (fsWrite fs (temp_path folder item) (chunksJoin fr.chunks))
      (temp_path folder item)
      (pjoin folder (derive_final_name filename_mode item env.pdfParse)) =
      (fun q =>
        if q = pjoin folder (derive_final_name filename_mode item env.pdfParse) then
          some (chunksJoin fr.chunks)
        else if q = temp_path folder item then none
        else fs q) := by
    funext q
    simp only [fsMove, fsWrite_at]
    by_cases hq1 : q = pjoin folder (derive_final_name filename_mode item env.pdfParse)
    · simp [hq1]
    · by_cases hq2 : q = temp_path folder item <;> simp [fsWrite, hq1, hq2]
  simp only [process_item, resolve_ok_of env base_url item g hres hg hurl, hfet, hdl,
    fsWrite, hneq, if_neg, hnew]
  simp [hmv, fsWrite, hneq, hnew]

theorem process_item_replacing (sha : Content → Nat) (env : Env)
    (base_url folder archive_folder item filename_mode : String) (fs : Fs)
    (g : GetResp) (fr : FetchResp) (oldC : Content)
    (hres : env.resolveResp = .ok g) (hg : g.status = 200)
    (hurl : str_contains g.url ".pdf" = true)
    (hfet : env.fetchResp = .ok fr) (hfst : fr.status = 200)
    (hok : chunksAllOk fr.chunks = true)
    (hneq : pjoin folder (derive_final_name filename_mode item env.pdfParse) ≠
      temp_path folder item)
    (hold : fs (pjoin folder (derive_final_name filename_mode item env.pdfParse)) =
      some oldC)
    (hsha : sha oldC ≠ sha (chunksJoin fr.chunks))
    (harch1 : archived_path archive_folder
        (derive_final_name filename_mode item env.pdfParse) env.timestamp ≠
      pjoin folder (derive_final_name filename_mode item env.pdfParse))
    (harch2 : archived_path archive_folder
        (derive_final_name filename_mode item env.pdfParse) env.timestamp ≠
      temp_path folder item) :
    ∃ dops,
      process_item sha env base_url folder archive_folder item filename_mode fs =
        ((fun q =>
            if q = archived_path archive_folder
                (derive_final_name filename_mode item env.pdfParse) env.timestamp then
              some oldC
            else if q = pjoin folder (derive_final_name filename_mode item env.pdfParse) then
              some (chunksJoin fr.chunks)
            else if q = temp_path folder item then none
            else fs q),
         dops ++ [.move (pjoin folder (derive_final_name filename_mode item env.pdfParse))
              (archived_path archive_folder
                (derive_final_name filename_mode item env.pdfParse) env.timestamp),
            .move (temp_path folder item)
              (pjoin folder (derive_final_name filename_mode item env.pdfParse))],
         .ok .updated)
      ∧ applyOps fs dops = fsWrite fs (temp_path folder item) (chunksJoin fr.chunks) := by
  obtain ⟨dops, hdl, hco⟩ := download_file_chunksOk fr fs (temp_path folder item) hfst hok
  refine ⟨dops, ?_, hco⟩
  set tmp := temp_path folder item with htmp
  set fin := pjoin folder (derive_final_name filename_mode item env.pdfParse) with hfin
  set arch := archived_path archive_folder
    (derive_final_name filename_mode item env.pdfParse) env.timestamp with harch
  have hfs1fin : fsWrite fs tmp (chunksJoin fr.chunks) fin = some oldC := by
    rw [fsWrite_ne fs _ hneq, hold]
  have hmv1 : fsMove (fsWrite fs tmp (chunksJoin fr.chunks)) fin arch =
      (fun q =>
        if q = arch then some oldC
        else if q = fin then none
        else fsWrite fs tmp (chunksJoin fr.chunks) q) := by
    simp only [fsMove, hfs1fin]
  have hmv2fs : (fun q =>
        if q = arch then some oldC
        else if q = fin then none
        else fsWrite fs tmp (chunksJoin fr.chunks) q) tmp = some (chunksJoin fr.chunks) := by
    have h1 : tmp ≠ arch := Ne.symm harch2
    have h2 : tmp ≠ fin := Ne.symm hneq
    simp [h1, h2, fsWrite_at]
  have hmv2 : fsMove (fsMove (fsWrite fs tmp (chunksJoin fr.chunks)) fin arch) tmp fin =
      (fun q =>
        if q = arch then some oldC
        else if q = fin then some (chunksJoin fr.chunks)
        else if q = tmp then none
        else fs q) := by
    rw [hmv1]
    funext q
    simp only [fsMove, hmv2fs]
    by_cases hq1 : q = fin
    · simp [hq1, Ne.symm harch1]
    · by_cases hq2 : q = tmp
      · simp [hq2, Ne.symm hneq, Ne.symm harch2]
      · by_cases hq3 : q = arch
        · simp [hq3, harch1, harch2]
        · simp [fsWrite, hq1, hq2, hq3]
  simp only [process_item, resolve_ok_of env base_url item g hres hg hurl, hfet, hdl]
  simp only [← htmp, ← hfin, ← harch]
  simp [hfs1fin, file_checksum, fsWrite_at, hsha, hmv2, fsWrite, hneq, hold]

theorem download_file_frame (resp : Except Unit FetchResp) (fs : Fs) (dest : String)
    (q : String) (hq : q ≠ dest) :
    (download_file resp fs dest).1 q = fs q := by
  match resp with
  | .error e => rfl
  | .ok r =>
    by_cases hst : r.status = 200
    · have hfr := writeChunks_frame dest r.chunks (fsWrite fs dest []) [] q hq
      simp only [download_file, hst, if_true]
      rcases hmatch : writeChunks (fsWrite fs dest []) dest [] r.chunks with ⟨fs2, ops, res⟩
      rw [hmatch] at hfr
      cases res <;> simpa [fsWrite_ne fs [] hq] using hfr
    · simp [download_file, hst]

/-! ## Claim theorems for the Sync Engine -/

/-- C1: when the existing Document File's digest differs from the fetched
Temporary File's digest, the run reports `updated`; its effect trace ends
with the move of the Document File into the Archive Folder **followed** by
the move of the Temporary File onto the final path; already after the
archiving move (before the overwrite) the old content sits at the archived
path; and in the final state the archived path holds the old content, the
final path the new content, and the Temporary File is gone — the prior
content is never discarded without an archived copy existing. -/
theorem c1_archives_before_overwrite (sha : Content → Nat) (env : Env)
    (base_url folder archive_folder item filename_mode : String) (fs : Fs)
    (g : GetResp) (fr : FetchResp) (oldC : Content)
    (hres : env.resolveResp = .ok g) (hg : g.status = 200)
    (hurl : str_contains g.url ".pdf" = true)
    (hfet : env.fetchResp = .ok fr) (hfst : fr.status = 200)
    (hok : chunksAllOk fr.chunks = true)
    (hneq : pjoin folder (derive_final_name filename_mode item env.pdfParse) ≠
      temp_path folder item)
    (hold : fs (pjoin folder (derive_final_name filename_mode item env.pdfParse)) =
      some oldC)
    (hsha : sha oldC ≠ sha (chunksJoin fr.chunks))
    (harch1 : archived_path archive_folder
        (derive_final_name filename_mode item env.pdfParse) env.timestamp ≠
      pjoin folder (derive_final_name filename_mode item env.pdfParse))
    (harch2 : archived_path archive_folder
        (derive_final_name filename_mode item env.pdfParse) env.timestamp ≠
      temp_path folder item) :
    (process_item sha env base_url folder archive_folder item filename_mode fs).2.2 =
        .ok .updated ∧
    (∃ pre,
      (process_item sha env base_url folder archive_folder item filename_mode fs).2.1 =
        pre ++ [.move (pjoin folder (derive_final_name filename_mode item env.pdfParse))
            (archived_path archive_folder
              (derive_final_name filename_mode item env.pdfParse) env.timestamp),
          .move (temp_path folder item)
            (pjoin folder (derive_final_name filename_mode item env.pdfParse))] ∧
      applyOps fs (pre ++ [.move (pjoin folder (derive_final_name filename_mode item env.pdfParse))
            (archived_path archive_folder
              (derive_final_name filename_mode item env.pdfParse) env.timestamp)])
          (archived_path archive_folder
            (derive_final_name filename_mode item env.pdfParse) env.timestamp) =
        some oldC) ∧
    (process_item sha env base_url folder archive_folder item filename_mode fs).1
        (archived_path archive_folder
          (derive_final_name filename_mode item env.pdfParse) env.timestamp) =
      some oldC ∧
    (process_item sha env base_url folder archive_folder item filename_mode fs).1
        (pjoin folder (derive_final_name filename_mode item env.pdfParse)) =
      some (chunksJoin fr.chunks) ∧
    (process_item sha env base_url folder archive_folder item filename_mode fs).1
        (temp_path folder item) = none := by
  obtain ⟨dops, heq, hco⟩ := process_item_replacing sha env base_url folder archive_folder
    item filename_mode fs g fr oldC hres hg hurl hfet hfst hok hneq hold hsha harch1 harch2
  set tmp := temp_path folder item with htmp
  set fin := pjoin folder (derive_final_name filename_mode item env.pdfParse) with hfin
  set arch := archived_path archive_folder
    (derive_final_name filename_mode item env.pdfParse) env.timestamp with harch
  rw [heq]
  refine ⟨rfl, ⟨dops, rfl, ?_⟩, ?_, ?_, ?_⟩
  · rw [applyOps_append, hco]
    have hfs1fin : fsWrite fs tmp (chunksJoin fr.chunks) fin = some oldC := by
      rw [fsWrite_ne fs _ hneq, hold]
    simp [applyOps, applyOp, fsMove, hfs1fin]
  · simp
  · simp [Ne.symm harch1]
  · simp [Ne.symm harch2, Ne.symm hneq]

/-- C3: when a Document File already exists at the derived final path and
its digest equals the fetched content's digest, the run reports
`up-to-date`, the Temporary File is deleted, the existing Document File
keeps its path and bytes, and every path other than the Temporary File —
in particular every archive path — is untouched. -/
theorem c3_identical_digest_noop (sha : Content → Nat) (env : Env)
    (base_url folder archive_folder item filename_mode : String) (fs : Fs)
    (g : GetResp) (fr : FetchResp) (oldC : Content)
    (hres : env.resolveResp = .ok g) (hg : g.status = 200)
    (hurl : str_contains g.url ".pdf" = true)
    (hfet : env.fetchResp = .ok fr) (hfst : fr.status = 200)
    (hok : chunksAllOk fr.chunks = true)
    (hneq : pjoin folder (derive_final_name filename_mode item env.pdfParse) ≠
      temp_path folder item)
    (hold : fs (pjoin folder (derive_final_name filename_mode item env.pdfParse)) =
      some oldC)
    (hsha : sha oldC = sha (chunksJoin fr.chunks)) :
    (process_item sha env base_url folder archive_folder item filename_mode fs).2.2 =
        .ok .upToDate ∧
    (process_item sha env base_url folder archive_folder item filename_mode fs).1
        (temp_path folder item) = none ∧
    (process_item sha env base_url folder archive_folder item filename_mode fs).1
        (pjoin folder (derive_final_name filename_mode item env.pdfParse)) =
      some oldC ∧
    ∀ q, q ≠ temp_path folder item →
      (process_item sha env base_url folder archive_folder item filename_mode fs).1 q =
        fs q := by
  obtain ⟨dops, heq, -⟩ := process_item_upToDate sha env base_url folder archive_folder
    item filename_mode fs g fr oldC hres hg hurl hfet hfst hok hneq hold hsha
  rw [heq]
  refine ⟨rfl, by simp, ?_, ?_⟩
  · simp [hneq, hold]
  · intro q hq
    simp [hq]

/-- C7: running the Sync Engine twice with the same environment (the remote
document unchanged), starting with no Document File at the derived final
path, is idempotent: the first run reports `downloaded`, the second run
takes the no-op branch and reports `up-to-date`, afterwards exactly the
derived final path holds the fetched content, the Temporary File is gone,
and every other path — in particular every archive path — still has its
original content (zero archive entries are created). -/
theorem c7_idempotent_second_run (sha : Content → Nat) (env : Env)
    (base_url folder archive_folder item filename_mode : String) (fs : Fs)
    (g : GetResp) (fr : FetchResp)
    (hres : env.resolveResp = .ok g) (hg : g.status = 200)
    (hurl : str_contains g.url ".pdf" = true)
    (hfet : env.fetchResp = .ok fr) (hfst : fr.status = 200)
    (hok : chunksAllOk fr.chunks = true)
    (hneq : pjoin folder (derive_final_name filename_mode item env.pdfParse) ≠
      temp_path folder item)
    (hnew : fs (pjoin folder (derive_final_name filename_mode item env.pdfParse)) = none) :
    (process_item sha env base_url folder archive_folder item filename_mode fs).2.2 =
        .ok .downloaded ∧
    (process_item sha env base_url folder archive_folder item filename_mode
        (process_item sha env base_url folder archive_folder item filename_mode fs).1).2.2 =
      .ok .upToDate ∧
    (process_item sha env base_url folder archive_folder item filename_mode
        (process_item sha env base_url folder archive_folder item filename_mode fs).1).1
        (pjoin folder (derive_final_name filename_mode item env.pdfParse)) =
      some (chunksJoin fr.chunks) ∧
    (process_item sha env base_url folder archive_folder item filename_mode
        (process_item sha env base_url folder archive_folder item filename_mode fs).1).1
        (temp_path folder item) = none ∧
    ∀ q, q ≠ pjoin folder (derive_final_name filename_mode item env.pdfParse) →
      q ≠ temp_path folder item →
      (process_item sha env base_url folder archive_folder item filename_mode
          (process_item sha env base_url folder archive_folder item filename_mode fs).1).1 q =
        fs q := by
  obtain ⟨dops1, heq1, -⟩ := process_item_firstWrite sha env base_url folder archive_folder
    item filename_mode fs g fr hres hg hurl hfet hfst hok hneq hnew
  set tmp := temp_path folder item with htmp
  set fin := pjoin folder (derive_final_name filename_mode item env.pdfParse) with hfin
  have hold2 : ((process_item sha env base_url folder archive_folder item filename_mode
      fs).1) fin = some (chunksJoin fr.chunks) := by
    rw [heq1]
    simp
  obtain ⟨dops2, heq2, -⟩ := process_item_upToDate sha env base_url folder archive_folder
    item filename_mode
    ((process_item sha env base_url folder archive_folder item filename_mode fs).1)
    g fr (chunksJoin fr.chunks) hres hg hurl hfet hfst hok hneq hold2 rfl
  refine ⟨by rw [heq1], by rw [heq2], ?_, by rw [heq2]; simp, ?_⟩
  · rw [heq2]
    simp only [← hfin, ← htmp]
    rw [if_neg hneq, hold2]
  · intro q hq1 hq2
    rw [heq2]
    simp only [← htmp]
    rw [if_neg hq2, heq1]
    simp only [← hfin, ← htmp]
    rw [if_neg hq1, if_neg hq2]

/-- Witness for C1: a concrete changed document is archived (old bytes at
the timestamped archive path), replaced (new bytes at the final path), and
reported as `updated`. -/
theorem c1_archives_before_overwrite_witness :
    (process_item (fun c : Content => c.length)
        ⟨.ok ⟨200, "https://e/x.pdf"⟩, .ok ⟨200, [.ok [1, 2]]⟩, .fail, "20240101_000000"⟩
        "b" "f" "f/archive" "A" "item"
        (fun q => if q = "f/A.pdf" then some [0] else none)).1
        "f/archive/A_20240101_000000.pdf" = some [0] ∧
    (process_item (fun c : Content => c.length)
        ⟨.ok ⟨200, "https://e/x.pdf"⟩, .ok ⟨200, [.ok [1, 2]]⟩, .fail, "20240101_000000"⟩
        "b" "f" "f/archive" "A" "item"
        (fun q => if q = "f/A.pdf" then some [0] else none)).1 "f/A.pdf" = some [1, 2] ∧
    (process_item (fun c : Content => c.length)
        ⟨.ok ⟨200, "https://e/x.pdf"⟩, .ok ⟨200, [.ok [1, 2]]⟩, .fail, "20240101_000000"⟩
        "b" "f" "f/archive" "A" "item"
        (fun q => if q = "f/A.pdf" then some [0] else none)).2.2 = .ok .updated := by
  have h := c1_archives_before_overwrite (fun c : Content => c.length)
    ⟨.ok ⟨200, "https://e/x.pdf"⟩, .ok ⟨200, [.ok [1, 2]]⟩, .fail, "20240101_000000"⟩
    "b" "f" "f/archive" "A" "item"
    (fun q => if q = "f/A.pdf" then some [0] else none)
    ⟨200, "https://e/x.pdf"⟩ ⟨200, [.ok [1, 2]]⟩ [0]
    rfl rfl (by decide) rfl rfl (by decide) (by decide) (by decide) (by decide)
    (by decide) (by decide)
  exact ⟨h.2.2.1, h.2.2.2.1, h.1⟩

/-- Witness for C3: a concrete unchanged document yields `up-to-date`, the
Temporary File is deleted, the Document File keeps its bytes, and an
unrelated archive path stays empty. -/
theorem c3_identical_digest_noop_witness :
    (process_item (fun c : Content => c.length)
        ⟨.ok ⟨200, "https://e/x.pdf"⟩, .ok ⟨200, [.ok [1, 2]]⟩, .fail, "20240101_000000"⟩
        "b" "f" "f/archive" "A" "item"
        (fun q => if q = "f/A.pdf" then some [9, 9] else none)).2.2 = .ok .upToDate ∧
    (process_item (fun c : Content => c.length)
        ⟨.ok ⟨200, "https://e/x.pdf"⟩, .ok ⟨200, [.ok [1, 2]]⟩, .fail, "20240101_000000"⟩
        "b" "f" "f/archive" "A" "item"
        (fun q => if q = "f/A.pdf" then some [9, 9] else none)).1 "f/A_new.pdf" = none ∧
    (process_item (fun c : Content => c.length)
        ⟨.ok ⟨200, "https://e/x.pdf"⟩, .ok ⟨200, [.ok [1, 2]]⟩, .fail, "20240101_000000"⟩
        "b" "f" "f/archive" "A" "item"
        (fun q => if q = "f/A.pdf" then some [9, 9] else none)).1 "f/A.pdf" = some [9, 9] ∧
    (process_item (fun c : Content => c.length)
        ⟨.ok ⟨200, "https://e/x.pdf"⟩, .ok ⟨200, [.ok [1, 2]]⟩, .fail, "20240101_000000"⟩
        "b" "f" "f/archive" "A" "item"
        (fun q => if q = "f/A.pdf" then some [9, 9] else none)).1
        "f/archive/A_20240101_000000.pdf" = none := by
  have h := c3_identical_digest_noop (fun c : Content => c.length)
    ⟨.ok ⟨200, "https://e/x.pdf"⟩, .ok ⟨200, [.ok [1, 2]]⟩, .fail, "20240101_000000"⟩
    "b" "f" "f/archive" "A" "item"
    (fun q => if q = "f/A.pdf" then some [9, 9] else none)
    ⟨200, "https://e/x.pdf"⟩ ⟨200, [.ok [1, 2]]⟩ [9, 9]
    rfl rfl (by decide) rfl rfl (by decide) (by decide) (by decide) (by decide)
  exact ⟨h.1, h.2.1, h.2.2.1,
    (h.2.2.2 "f/archive/A_20240101_000000.pdf" (by decide)).trans (by decide)⟩

/-- Witness for C7: from an empty filesystem, a first concrete run reports
`downloaded` and a second identical run reports `up-to-date` with exactly
one Document File, no Temporary File, and an untouched archive path. -/
theorem c7_idempotent_second_run_witness :
    (process_item (fun c : Content => c.length)
        ⟨.ok ⟨200, "https://e/x.pdf"⟩, .ok ⟨200, [.ok [1, 2]]⟩, .fail, "20240101_000000"⟩
        "b" "f" "f/archive" "A" "item" (fun _ => none)).2.2 = .ok .downloaded ∧
    (process_item (fun c : Content => c.length)
        ⟨.ok ⟨200, "https://e/x.pdf"⟩, .ok ⟨200, [.ok [1, 2]]⟩, .fail, "20240101_000000"⟩
        "b" "f" "f/archive" "A" "item"
        (process_item (fun c : Content => c.length)
          ⟨.ok ⟨200, "https://e/x.pdf"⟩, .ok ⟨200, [.ok [1, 2]]⟩, .fail, "20240101_000000"⟩
          "b" "f" "f/archive" "A" "item" (fun _ => none)).1).2.2 = .ok .upToDate ∧
    (process_item (fun c : Content => c.length)
        ⟨.ok ⟨200, "https://e/x.pdf"⟩, .ok ⟨200, [.ok [1, 2]]⟩, .fail, "20240101_000000"⟩
        "b" "f" "f/archive" "A" "item"
        (process_item (fun c : Content => c.length)
          ⟨.ok ⟨200, "https://e/x.pdf"⟩, .ok ⟨200, [.ok [1, 2]]⟩, .fail, "20240101_000000"⟩
          "b" "f" "f/archive" "A" "item" (fun _ => none)).1).1 "f/A.pdf" = some [1, 2] ∧
    (process_item (fun c : Content => c.length)
        ⟨.ok ⟨200, "https://e/x.pdf"⟩, .ok ⟨200, [.ok [1, 2]]⟩, .fail, "20240101_000000"⟩
        "b" "f" "f/archive" "A" "item"
        (process_item (fun c : Content => c.length)
          ⟨.ok ⟨200, "https://e/x.pdf"⟩, .ok ⟨200, [.ok [1, 2]]⟩, .fail, "20240101_000000"⟩
          "b" "f" "f/archive" "A" "item" (fun _ => none)).1).1 "f/A_new.pdf" = none ∧
    (process_item (fun c : Content => c.length)
        ⟨.ok ⟨200, "https://e/x.pdf"⟩, .ok ⟨200, [.ok [1, 2]]⟩, .fail, "20240101_000000"⟩
        "b" "f" "f/archive" "A" "item"
        (process_item (fun c : Content => c.length)
          ⟨.ok ⟨200, "https://e/x.pdf"⟩, .ok ⟨200, [.ok [1, 2]]⟩, .fail, "20240101_000000"⟩
          "b" "f" "f/archive" "A" "item" (fun _ => none)).1).1
        "f/archive/A_20240101_000000.pdf" = none := by
  have h := c7_idempotent_second_run (fun c : Content => c.length)
    ⟨.ok ⟨200, "https://e/x.pdf"⟩, .ok ⟨200, [.ok [1, 2]]⟩, .fail, "20240101_000000"⟩
    "b" "f" "f/archive" "A" "item" (fun _ => none)
    ⟨200, "https://e/x.pdf"⟩ ⟨200, [.ok [1, 2]]⟩
    rfl rfl (by decide) rfl rfl (by decide) (by decide) (by decide)
  exact ⟨h.1, h.2.1, h.2.2.1, h.2.2.2.1,
    h.2.2.2.2 "f/archive/A_20240101_000000.pdf" (by decide) (by decide)⟩

/-! ## Claim theorems for the Fetcher and the URL Resolver -/

/-- Counterexample to C2: a fetch whose stream fails after delivering the
first chunk leaves the partial file at the destination path even though the
task ends in a terminal (exceptional) state — starting from a filesystem
with no file at the Temporary File path, after the run the Temporary File
holds the partial chunk and the outcome is the propagated exception. -/
theorem c2_midstream_counterexample :
    ((fun _ => none : Fs) "f/i_new.pdf" = none) ∧
    (process_item (fun c : Content => c.length)
        ⟨.ok ⟨200, "https://e/x.pdf"⟩, .ok ⟨200, [.ok [1], .error ()]⟩, .fail, "ts"⟩
        "b" "f" "f/archive" "i" "item" (fun _ => none)).1 "f/i_new.pdf" = some [1] ∧
    (process_item (fun c : Content => c.length)
        ⟨.ok ⟨200, "https://e/x.pdf"⟩, .ok ⟨200, [.ok [1], .error ()]⟩, .fail, "ts"⟩
        "b" "f" "f/archive" "i" "item" (fun _ => none)).2.2 = .error () := by
  refine ⟨rfl, ?_, ?_⟩ <;> decide

/-- C2 as amended: when the `requests.get` call itself raises, and when the
response has a non-success status, the Fetcher creates no file and alters
nothing; moreover no invocation of the Fetcher — succeeding, failing, or
interrupted mid-stream — ever touches any path other than its destination
path, so the existing Document File is never created or altered by a fetch.
(A mid-stream error, however, propagates as an exception and leaves the
partial file at the destination path — the counterexample.) -/
theorem c2_fetcher_failure_amended (fs : Fs) (dest : String) (e : Unit)
    (r : FetchResp) (hst : r.status ≠ 200) :
    download_file (.error e) fs dest = (fs, [], .error e) ∧
    download_file (.ok r) fs dest = (fs, [], .ok false) ∧
    ∀ (resp : Except Unit FetchResp) (q : String), q ≠ dest →
      (download_file resp fs dest).1 q = fs q := by
  refine ⟨rfl, by simp [download_file, hst], fun resp q hq =>
    download_file_frame resp fs dest q hq⟩

/-- Witness for the amended C2 at a concrete non-success response and a
concrete mid-stream failure. -/
theorem c2_fetcher_failure_amended_witness :
    download_file (.error ()) (fun _ => none) "f/i_new.pdf" =
      ((fun _ => none : Fs), [], .error ()) ∧
    download_file (.ok ⟨404, [.ok [1]]⟩) (fun _ => none) "f/i_new.pdf" =
      ((fun _ => none : Fs), [], .ok false) ∧
    (download_file (.ok ⟨200, [.ok [1], .error ()]⟩) (fun _ => none) "f/i_new.pdf").1
      "f/other.pdf" = none := by
  have h := c2_fetcher_failure_amended (fun _ => none) "f/i_new.pdf" ()
    ⟨404, [.ok [1]]⟩ (by decide)
  exact ⟨h.1, h.2.1,
    (h.2.2 (.ok ⟨200, [.ok [1], .error ()]⟩) "f/other.pdf" (by decide)).trans rfl⟩

/-- Counterexample to C4: when the HTTP GET raises a transport error, the
URL Resolver does not return the "not found" result — the exception
propagates to its caller. -/
theorem c4_resolver_raises_counterexample :
    resolve_pdf_url (fun _ => .error ()) "https://b/search?q=" "ABC" = .error () := by
  decide

/-- C4 as amended: whenever the HTTP GET completes with a response (no
transport exception), the URL Resolver never raises — it returns some
`Option` result — and every completed non-success status is folded into the
"not found" result; only a raised transport exception escapes. -/
theorem c4_resolver_amended (http_get : String → Except Unit GetResp)
    (base_url item : String) (r : GetResp)
    (h : http_get (base_url ++ quote_plus item) = .ok r) :
    (∃ o, resolve_pdf_url http_get base_url item = .ok o) ∧
    (r.status ≠ 200 → resolve_pdf_url http_get base_url item = .ok none) := by
  constructor
  · by_cases hc : r.status = 200 ∧ str_contains r.url ".pdf" = true
    · exact ⟨some r.url, by simp [resolve_pdf_url, h, hc]⟩
    · refine ⟨none, ?_⟩
      simp only [resolve_pdf_url, h]
      rw [if_neg hc]
  · intro hst
    simp [resolve_pdf_url, h, hst]

/-- Witness for the amended C4 at a concrete completed 404 exchange. -/
theorem c4_resolver_amended_witness :
    (∃ o, resolve_pdf_url (fun _ => .ok ⟨404, "https://e/x"⟩) "https://b/q=" "A" =
      .ok o) ∧
    resolve_pdf_url (fun _ => .ok ⟨404, "https://e/x"⟩) "https://b/q=" "A" = .ok none := by
  have h := c4_resolver_amended (fun _ => .ok ⟨404, "https://e/x"⟩) "https://b/q=" "A"
    ⟨404, "https://e/x"⟩ rfl
  exact ⟨h.1, h.2 (by decide)⟩

/-- Counterexample to C6: a final URL whose path does **not** end in
`".pdf"` (here `/a.pdfx`) is still returned by the resolver, because the
code tests only that `".pdf"` occurs somewhere in the URL string. -/
theorem c6_substring_counterexample :
    resolve_pdf_url (fun _ => .ok ⟨200, "https://e/a.pdfx"⟩) "https://b/q=" "A" =
      .ok (some "https://e/a.pdfx") ∧
    specUrlPath "https://e/a.pdfx" = "/a.pdfx" ∧
    GenIndex.pyEndsWith (specUrlPath "https://e/a.pdfx") ".pdf" = false := by
  refine ⟨?_, ?_, ?_⟩ <;> decide

theorem headMatches_iff : ∀ (s n : List Char),
    startsWithList s n = true ↔ ∃ t, s = n ++ t
  | s, [] => by simp [startsWithList]
  | [], n :: ns => by simp [startsWithList]
  | h :: hs, n :: ns => by
      constructor
      · intro hsw
        rw [startsWithList, Bool.and_eq_true] at hsw
        obtain ⟨t, ht⟩ := (headMatches_iff hs ns).mp hsw.2
        exact ⟨t, by simp [ht, of_decide_eq_true hsw.1]⟩
      · rintro ⟨t, ht⟩
        rw [List.cons_append, List.cons.injEq] at ht
        rw [startsWithList, Bool.and_eq_true]
        exact ⟨decide_eq_true ht.1, (headMatches_iff hs ns).mpr ⟨t, ht.2⟩⟩

theorem containsList_iff : ∀ (hay n : List Char),
    containsList n hay = true ↔ ∃ l r, hay = l ++ n ++ r
  | [], n => by
      constructor
      · intro hc
        rw [containsList, List.isEmpty_iff] at hc
        exact ⟨[], [], by simp [hc]⟩
      · rintro ⟨l, r, hr⟩
        have : n = [] := by
          rcases List.append_eq_nil.mp (List.append_eq_nil.mp hr.symm).1 with ⟨-, h2⟩
          exact h2
        simp [containsList, this]
  | c :: rest, n => by
      constructor
      · intro hc
        rw [containsList, Bool.or_eq_true] at hc
        rcases hc with hc | hc
        · obtain ⟨t, ht⟩ := (headMatches_iff (c :: rest) n).mp hc
          exact ⟨[], t, by simp [ht]⟩
        · obtain ⟨l, r, hr⟩ := (containsList_iff rest n).mp hc
          exact ⟨c :: l, r, by simp [hr]⟩
      · rintro ⟨l, r, hr⟩
        rw [containsList, Bool.or_eq_true]
        match l, hr with
        | [], hr =>
          exact .inl ((headMatches_iff (c :: rest) n).mpr ⟨r, by simpa using hr⟩)
        | a :: l', hr =>
          rw [List.cons_append, List.cons_append, List.cons.injEq] at hr
          exact .inr ((containsList_iff rest n).mpr ⟨l', r, hr.2⟩)

/-- C6 as amended: given a completed exchange, the resolver returns a URL
(rather than "not found") **iff** the final status is exactly 200 and the
string `".pdf"` occurs somewhere in the final URL — as a substring of path,
query, or anything else — and the returned URL is the final URL.  (The
spec's "path ends in .pdf" reading is refuted by the counterexample.) -/
theorem c6_substring_amended (http_get : String → Except Unit GetResp)
    (base_url item : String) (r : GetResp)
    (h : http_get (base_url ++ quote_plus item) = .ok r) (u : String) :
    resolve_pdf_url http_get base_url item = .ok (some u) ↔
      (r.status = 200 ∧ (∃ l m, r.url.data = l ++ (".pdf").data ++ m) ∧ u = r.url) := by
  have hsub : str_contains r.url ".pdf" = true ↔
      ∃ l m, r.url.data = l ++ (".pdf").data ++ m :=
    containsList_iff r.url.data (".pdf").data
  simp only [resolve_pdf_url, h]
  by_cases hc : r.status = 200 ∧ str_contains r.url ".pdf" = true
  · rw [if_pos hc]
    simp only [Except.ok.injEq, Option.some.injEq]
    constructor
    · intro hu
      exact ⟨hc.1, hsub.mp hc.2, hu.symm⟩
    · rintro ⟨-, -, hu⟩
      exact hu.symm
  · rw [if_neg hc]
    simp only [Except.ok.injEq]
    constructor
    · intro hu
      exact absurd hu (by simp)
    · rintro ⟨h1, h2, -⟩
      exact absurd ⟨h1, hsub.mpr h2⟩ hc

/-- Witness for the amended C6: a URL ending in `.pdf` is accepted, in both
directions of the equivalence. -/
theorem c6_substring_amended_witness :
    resolve_pdf_url (fun _ => .ok ⟨200, "https://e/a.pdf"⟩) "https://b/q=" "A" =
      .ok (some "https://e/a.pdf") ↔
      (200 = 200 ∧
        (∃ l m, ("https://e/a.pdf").data = l ++ (".pdf").data ++ m) ∧
        "https://e/a.pdf" = "https://e/a.pdf") :=
  c6_substring_amended (fun _ => .ok ⟨200, "https://e/a.pdf"⟩) "https://b/q=" "A"
    ⟨200, "https://e/a.pdf"⟩ rfl "https://e/a.pdf"

/-! ## Claim theorems for naming -/

/-- C5: the derived final name is never empty; under the by-identifier
policy (`filename_mode = "item"`) it is `<identifier>.pdf` unconditionally;
and under the by-title policy, whenever the Title Extractor cannot derive a
usable title (parse failure, missing metadata, or a title sanitizing to the
empty string — all the cases where `get_pdf_title` yields `None` or `""`),
the final name is `<identifier>.pdf`. -/
theorem c5_naming_fallback (filename_mode item : String) (p : PdfParse) :
    (derive_final_name filename_mode item p).data ≠ [] ∧
    derive_final_name "item" item p = item ++ ".pdf" ∧
    ((get_pdf_title p = none ∨ get_pdf_title p = some "") →
      derive_final_name "title" item p = item ++ ".pdf") := by
  have hne : ∀ s : String, (s ++ ".pdf").data ≠ [] := by
    intro s
    simp [String.data_append]
  refine ⟨?_, ?_, ?_⟩
  · by_cases hm : filename_mode = "title"
    · simp only [derive_final_name, hm, if_pos]
      apply hne
    · simp only [derive_final_name, hm, if_neg, if_false]
      apply hne
  · simp [derive_final_name]
  · rintro (hnone | hempty)
    · simp [derive_final_name, hnone]
    · simp [derive_final_name, hempty]

/-- Witness for C5 at a concrete title that sanitizes to nothing (`"///"`
loses all its characters), so both policies fall back to the identifier. -/
theorem c5_naming_fallback_witness :
    (derive_final_name "title" "SLVA001" (.meta (some "///"))).data ≠ [] ∧
    derive_final_name "item" "SLVA001" (.meta (some "///")) = "SLVA001" ++ ".pdf" ∧
    derive_final_name "title" "SLVA001" (.meta (some "///")) = "SLVA001" ++ ".pdf" := by
  have h := c5_naming_fallback "title" "SLVA001" (.meta (some "///"))
  have h2 := c5_naming_fallback "item" "SLVA001" (.meta (some "///"))
  exact ⟨h.1, h2.2.1, h.2.2 (.inr (by decide))⟩

theorem pyStrip_subset (l : List Char) : ∀ c ∈ pyStrip l, c ∈ l := by
  intro c hc
  rw [pyStrip, List.mem_reverse] at hc
  have h1 := (List.dropWhile_sublist _).subset hc
  rw [List.mem_reverse] at h1
  exact (List.dropWhile_sublist _).subset h1

/-- C9: every title string returned by the Title Extractor is free of all
nine characters `\\ / * ? : " < > |` (the sanitization removes every
occurrence), and when such a title names the file, the derived final name
contains no path separator, so the Document File lands directly inside the
storage folder. -/
theorem c9_sanitized_name_no_separators (item t : String) (p : PdfParse)
    (h : get_pdf_title p = some t) :
    (∀ c ∈ t.data, c ∉ bad_chars) ∧
    (t ≠ "" → ∀ c ∈ (derive_final_name "title" item p).data, c ≠ '/' ∧ c ≠ '\\') := by
  have hsub : ∀ c ∈ t.data, c ∉ bad_chars := by
    cases p with
    | fail => exact absurd h (by simp [get_pdf_title])
    | meta o =>
      cases o with
      | none => exact absurd h (by simp [get_pdf_title])
      | some u =>
        by_cases hu : u = ""
        · rw [get_pdf_title] at h
          simp [hu] at h
        · rw [get_pdf_title, if_neg hu] at h
          injection h with h'
          subst h'
          intro c hc
          rw [sanitize_title] at hc
          have hmem := pyStrip_subset _ c hc
          rw [List.mem_filter] at hmem
          simpa using hmem.2
  refine ⟨hsub, ?_⟩
  intro ht c hc
  have hname : derive_final_name "title" item p = t ++ ".pdf" := by
    simp [derive_final_name, h, ht]
  rw [hname, String.data_append] at hc
  rcases List.mem_append.mp hc with hc | hc
  · have := hsub c hc
    constructor
    · intro hcq
      exact this (by simp [bad_chars, hcq])
    · intro hcq
      exact this (by simp [bad_chars, hcq])
  · have hd : (".pdf" : String).data = ['.', 'p', 'd', 'f'] := rfl
    rw [hd] at hc
    simp only [List.mem_cons, List.not_mem_nil, or_false] at hc
    rcases hc with rfl | rfl | rfl | rfl <;> exact ⟨by decide, by decide⟩

/-- Witness for C9: the concrete embedded title `"a/b:c"` sanitizes to
`"abc"`, which is free of the forbidden characters, and the derived final
name `abc.pdf` has no path separator. -/
theorem c9_sanitized_name_no_separators_witness :
    (∀ c ∈ ("abc" : String).data, c ∉ bad_chars) ∧
    (∀ c ∈ (derive_final_name "title" "X" (.meta (some "a/b:c"))).data,
      c ≠ '/' ∧ c ≠ '\\') := by
  have h := c9_sanitized_name_no_separators "X" "abc" (.meta (some "a/b:c")) (by decide)
  exact ⟨h.1, h.2 (by decide)⟩

/-! ## Claim theorems for the orchestrator -/

theorem poolStep_load {τ : Type} {pool : Nat} {s s' : PoolState τ}
    (h : PoolStep τ pool s s') : poolLoad s' = poolLoad s := by
  cases h with
  | start t q r d hlt =>
    show (q : Multiset τ) + ↑(t :: r) + ↑d = ↑(t :: q) + ↑r + ↑d
    rw [← Multiset.cons_coe, ← Multiset.cons_coe, ← Multiset.singleton_add,
      ← Multiset.singleton_add]
    abel
  | finish t q r₁ r₂ d =>
    show (q : Multiset τ) + ↑(r₁ ++ r₂) + ↑(t :: d) = ↑q + ↑(r₁ ++ t :: r₂) + ↑d
    have h1 : ((r₁ ++ r₂ : List τ) : Multiset τ) = ↑r₁ + ↑r₂ := rfl
    have h2 : ((r₁ ++ t :: r₂ : List τ) : Multiset τ) = ↑r₁ + ↑(t :: r₂) := rfl
    rw [h1, h2, ← Multiset.cons_coe, ← Multiset.cons_coe, ← Multiset.singleton_add,
      ← Multiset.singleton_add]
    abel

theorem poolReach_load {τ : Type} {pool : Nat} {s s' : PoolState τ}
    (h : Relation.ReflTransGen (PoolStep τ pool) s s') : poolLoad s' = poolLoad s := by
  induction h with
  | refl => rfl
  | tail _ hstep ih => rw [poolStep_load hstep, ih]

/-- C8: `main` submits exactly one task per (collection, item) pair, each
carrying its own terminal outcome (a future captures an exception as a
value, so a failure is data, never a control transfer to another task), and
in **every** execution of the bounded worker pool — whatever the outcomes
and however the scheduler interleaves — the run reaches its "done" state
(queue and workers empty, as `as_completed` requires) only with the
completed set a permutation of all submitted tasks: no task's failure
cancels, blocks, or aborts any other task or the orchestrator. -/
theorem c8_all_tasks_complete (pool : Nat)
    (config : List (String × CategoryDetails))
    (outcome : String × String → Except Unit ItemResult)
    (s : PoolState ((String × String) × Except Unit ItemResult))
    (hreach : Relation.ReflTransGen
      (PoolStep ((String × String) × Except Unit ItemResult) pool)
      ⟨(submitted_tasks config).map (fun t => (t, outcome t)), [], []⟩ s)
    (hdone : poolDone s) :
    (s.completed.map Prod.fst).Perm (submitted_tasks config) := by
  have hload := poolReach_load hreach
  have h1 : poolLoad s = ↑s.completed := by
    rw [poolLoad, hdone.1, hdone.2, Multiset.coe_nil, zero_add, zero_add]
  have h2 : poolLoad (⟨(submitted_tasks config).map (fun t => (t, outcome t)), [], []⟩ :
      PoolState ((String × String) × Except Unit ItemResult)) =
      ↑((submitted_tasks config).map (fun t => (t, outcome t))) := by
    rw [poolLoad, Multiset.coe_nil, add_zero, add_zero]
  have hcoe : (s.completed : Multiset ((String × String) × Except Unit ItemResult)) =
      ↑((submitted_tasks config).map (fun t => (t, outcome t))) := by
    rw [← h1, ← h2, hload]
  have hperm := (Multiset.coe_eq_coe.mp hcoe).map Prod.fst
  rwa [List.map_map,
    show Prod.fst ∘ (fun t : String × String => (t, outcome t)) = id from rfl,
    List.map_id] at hperm

/-- Witness for C8: a concrete two-item collection in which one task ends
in a captured exception and the other succeeds; under an explicit
four-worker schedule both complete and the completed set is a permutation
of the submitted tasks. -/
theorem c8_all_tasks_complete_witness :
    [("parts", "B"), ("parts", "A")].Perm
      (submitted_tasks [("parts", ⟨"f", "u", none, ["A", "B"]⟩)]) := by
  have hreach : Relation.ReflTransGen
      (PoolStep ((String × String) × Except Unit ItemResult) 4)
      ⟨(submitted_tasks [("parts", (⟨"f", "u", none, ["A", "B"]⟩ : CategoryDetails))]).map
        (fun t => (t, if t.2 = "A" then (.error () : Except Unit ItemResult)
          else .ok .downloaded)), [], []⟩
      ⟨[], [], [(("parts", "B"), .ok .downloaded), (("parts", "A"), .error ())]⟩ := by
    have h01 : PoolStep ((String × String) × Except Unit ItemResult) 4
        ⟨[(("parts", "A"), .error ()), (("parts", "B"), .ok .downloaded)], [], []⟩
        ⟨[(("parts", "B"), .ok .downloaded)], [(("parts", "A"), .error ())], []⟩ :=
      .start ((("parts", "A"), Except.error ()) : (String × String) × Except Unit ItemResult)
        [(("parts", "B"), Except.ok ItemResult.downloaded)] [] [] (by decide)
    have h12 : PoolStep ((String × String) × Except Unit ItemResult) 4
        ⟨[(("parts", "B"), .ok .downloaded)], [(("parts", "A"), .error ())], []⟩
        ⟨[], [(("parts", "B"), .ok .downloaded), (("parts", "A"), .error ())], []⟩ :=
      .start ((("parts", "B"), Except.ok ItemResult.downloaded) :
          (String × String) × Except Unit ItemResult)
        [] [(("parts", "A"), Except.error ())] [] (by decide)
    have h23 : PoolStep ((String × String) × Except Unit ItemResult) 4
        ⟨[], [(("parts", "B"), .ok .downloaded), (("parts", "A"), .error ())], []⟩
        ⟨[], [(("parts", "B"), .ok .downloaded)], [(("parts", "A"), .error ())]⟩ :=
      .finish ((("parts", "A"), Except.error ()) : (String × String) × Except Unit ItemResult)
        [] [(("parts", "B"), Except.ok ItemResult.downloaded)] [] []
    have h34 : PoolStep ((String × String) × Except Unit ItemResult) 4
        ⟨[], [(("parts", "B"), .ok .downloaded)], [(("parts", "A"), .error ())]⟩
        ⟨[], [], [(("parts", "B"), .ok .downloaded), (("parts", "A"), .error ())]⟩ :=
      .finish ((("parts", "B"), Except.ok ItemResult.downloaded) :
          (String × String) × Except Unit ItemResult)
        [] [] [] [(("parts", "A"), Except.error ())]
    exact ((((Relation.ReflTransGen.refl).tail h01).tail h12).tail h23).tail h34
  exact c8_all_tasks_complete 4 [("parts", ⟨"f", "u", none, ["A", "B"]⟩)]
    (fun t => if t.2 = "A" then .error () else .ok .downloaded)
    ⟨[], [], [(("parts", "B"), .ok .downloaded), (("parts", "A"), .error ())]⟩
    hreach ⟨rfl, rfl⟩

end Yoink

/-! ## Claim theorems for the index generator -/

namespace GenIndex

theorem charListLe_trans : ∀ a b c : List Char,
    charListLe a b = true → charListLe b c = true → charListLe a c = true
  | [], _, _, _, _ => rfl
  | x :: xs, [], _, h1, _ => by simp [charListLe] at h1
  | _ :: _, _ :: _, [], _, h2 => by simp [charListLe] at h2
  | x :: xs, y :: ys, z :: zs, h1, h2 => by
    rw [charListLe] at h1 h2 ⊢
    by_cases hxy : x = y
    · subst hxy
      rw [if_pos rfl] at h1
      by_cases hxz : x = z
      · subst hxz
        rw [if_pos rfl] at h2 ⊢
        exact charListLe_trans xs ys zs h1 h2
      · rw [if_neg hxz] at h2 ⊢
        exact h2
    · rw [if_neg hxy] at h1
      have hlt1 : x < y := of_decide_eq_true h1
      by_cases hyz : y = z
      · subst hyz
        rw [if_neg hxy]
        exact h1
      · rw [if_neg hyz] at h2
        have hlt2 : y < z := of_decide_eq_true h2
        have hlt : x < z := lt_trans hlt1 hlt2
        rw [if_neg (ne_of_lt hlt)]
        exact decide_eq_true hlt

theorem charListLe_total : ∀ a b : List Char,
    charListLe a b = true ∨ charListLe b a = true
  | [], _ => .inl rfl
  | _ :: _, [] => .inr rfl
  | x :: xs, y :: ys => by
    by_cases hxy : x = y
    · subst hxy
      rw [charListLe, charListLe, if_pos rfl, if_pos rfl]
      exact charListLe_total xs ys
    · rcases lt_or_gt_of_ne hxy with hlt | hgt
      · exact .inl (by rw [charListLe, if_neg hxy]; exact decide_eq_true hlt)
      · exact .inr (by rw [charListLe, if_neg (Ne.symm hxy)]; exact decide_eq_true hgt)

instance : IsTrans String (fun a b => casefoldLe a b = true) :=
  ⟨fun _ _ _ => charListLe_trans _ _ _⟩

instance : IsTotal String (fun a b => casefoldLe a b = true) :=
  ⟨fun _ _ => charListLe_total _ _⟩

theorem find_replaced_self (n c : String) : ∀ (d : Dir),
    d.any (fun e => e.1 == n) = true →
    (d.map (fun e => if e.1 == n then (n, c) else e)).find? (fun e => e.1 == n) =
      some (n, c)
  | [], h => by simp at h
  | e :: d, h => by
    by_cases he : e.1 == n
    · simp [List.find?, he]
    · have he' : (e.1 == n) = false := by simpa using he
      have hd : d.any (fun e => e.1 == n) = true := by
        simpa [List.any_cons, he'] using h
      simp only [List.map_cons, List.find?, he, if_neg, if_false, Bool.false_eq_true]
      exact find_replaced_self n c d hd

theorem find_appended_self (n c : String) : ∀ (d : Dir),
    d.any (fun e => e.1 == n) = false →
    (d ++ [(n, c)]).find? (fun e => e.1 == n) = some (n, c)
  | [], _ => by simp [List.find?]
  | e :: d, h => by
    rw [List.any_cons, Bool.or_eq_false_iff] at h
    simp only [List.cons_append, List.find?, h.1]
    exact find_appended_self n c d h.2

theorem dirLookup_dirWrite_self (d : Dir) (n c : String) :
    dirLookup (dirWrite d n c) n = some c := by
  rw [dirWrite]
  by_cases hany : d.any (fun e => e.1 == n)
  · rw [if_pos hany, dirLookup, find_replaced_self n c d hany]
    rfl
  · rw [if_neg hany, dirLookup, find_appended_self n c d (Bool.eq_false_iff.mpr hany)]
    rfl

theorem find_replaced_other (n c m : String) (hm : m ≠ n) : ∀ (d : Dir),
    (d.map (fun e => if e.1 == n then (n, c) else e)).find? (fun e => e.1 == m) =
      d.find? (fun e => e.1 == m)
  | [] => rfl
  | e :: d => by
    by_cases he : e.1 == n
    · have hem : (e.1 == m) = false := by
        have : e.1 = n := by simpa using he
        simp [this, Ne.symm hm]
      have hnm : (n == m) = false := by simp [Ne.symm hm]
      simp only [List.map_cons, List.find?, he, if_pos, hnm, hem, Bool.false_eq_true]
      exact find_replaced_other n c m hm d
    · simp only [List.map_cons, List.find?, he, if_neg, if_false, Bool.false_eq_true]
      by_cases hem : e.1 == m
      · simp [List.find?, hem]
      · simp only [List.find?, hem, Bool.false_eq_true]
        exact find_replaced_other n c m hm d

theorem find_appended_other (n c m : String) (hm : m ≠ n) : ∀ (d : Dir),
    (d ++ [(n, c)]).find? (fun e => e.1 == m) = d.find? (fun e => e.1 == m)
  | [] => by
    have hnm : (n == m) = false := by simp [Ne.symm hm]
    simp [List.find?, hnm]
  | e :: d => by
    by_cases hem : e.1 == m
    · simp [List.find?, hem]
    · simp only [List.cons_append, List.find?, hem, Bool.false_eq_true]
      exact find_appended_other n c m hm d

theorem dirLookup_dirWrite_other (d : Dir) (n c m : String) (hm : m ≠ n) :
    dirLookup (dirWrite d n c) m = dirLookup d m := by
  rw [dirWrite]
  by_cases hany : d.any (fun e => e.1 == n)
  · rw [if_pos hany, dirLookup, find_replaced_other n c m hm d]
    rfl
  · rw [if_neg hany, dirLookup, find_appended_other n c m hm d]
    rfl

/-- C10: the generated listing contains exactly the directory entries whose
name does not end in `".html"` case-insensitively (so it includes non-PDF
entries such as the `archive` subdirectory and leftover `*_new.pdf`
temporary files), each exactly as often as it occurs in the directory; the
listing is sorted case-insensitively; and the rendered page is written to
`index.html` inside that same directory, replacing any previous `index.html`
while leaving every other entry untouched. -/
theorem c10_index_generation (d : Dir) (pdf_dir : String) :
    (∀ f, f ∈ index_entries (d.map Prod.fst) ↔
      (f ∈ d.map Prod.fst ∧ pyEndsWith (pyLower f) ".html" = false)) ∧
    (index_entries (d.map Prod.fst)).Perm
      ((d.map Prod.fst).filter (fun f => !(pyEndsWith (pyLower f) file_extensions))) ∧
    List.Sorted (fun a b => casefoldLe a b = true) (index_entries (d.map Prod.fst)) ∧
    dirLookup (generate_index d pdf_dir) output_file_name =
      some (render_html (pybasename pdf_dir) (index_entries (d.map Prod.fst))) ∧
    (∀ m, m ≠ output_file_name →
      dirLookup (generate_index d pdf_dir) m = dirLookup d m) := by
  have hperm : (index_entries (d.map Prod.fst)).Perm
      ((d.map Prod.fst).filter (fun f => !(pyEndsWith (pyLower f) file_extensions))) :=
    List.perm_insertionSort _ _
  refine ⟨?_, hperm, ?_, ?_, ?_⟩
  · intro f
    rw [hperm.mem_iff, List.mem_filter, file_extensions, Bool.not_eq_true']
  · exact List.sorted_insertionSort _ _
  · rw [generate_index]
    exact dirLookup_dirWrite_self d output_file_name _
  · intro m hm
    rw [generate_index]
    exact dirLookup_dirWrite_other d output_file_name _ m hm

/-- Witness for C10 at a concrete directory: the non-HTML entry is listed,
the old `index.html` is excluded from the listing and overwritten, and the
other entry's content is untouched. -/
theorem c10_index_generation_witness :
    ("b.PDF" ∈ index_entries (([("b.PDF", "x"), ("index.html", "old")] : Dir).map
      Prod.fst)) ∧
    ¬ ("index.html" ∈ index_entries (([("b.PDF", "x"), ("index.html", "old")] : Dir).map
      Prod.fst)) ∧
    dirLookup (generate_index [("b.PDF", "x"), ("index.html", "old")] "/tmp/docs")
      "index.html" =
      some (render_html "docs"
        (index_entries (([("b.PDF", "x"), ("index.html", "old")] : Dir).map Prod.fst))) ∧
    dirLookup (generate_index [("b.PDF", "x"), ("index.html", "old")] "/tmp/docs")
      "b.PDF" = some "x" := by
  have h := c10_index_generation [("b.PDF", "x"), ("index.html", "old")] "/tmp/docs"
  refine ⟨(h.1 "b.PDF").mpr (by decide), ?_, ?_, ?_⟩
  · intro hmem
    have := ((h.1 "index.html").mp hmem).2
    revert this
    decide
  · have := h.2.2.2.1
    rw [show pybasename "/tmp/docs" = "docs" from by decide] at this
    exact this
  · exact (h.2.2.2.2 "b.PDF" (by decide)).trans (by decide)

end GenIndex
